import Mathlib

/-!
Verification of the Live2D interaction controller
(src/static/live2d-interaction.js) against its specification.

The JavaScript handlers are shallowly embedded as pure Lean functions over
explicit state.  JavaScript numbers are modelled as `JSNum` (a finite
rational, an infinity, or NaN) where non-finite values matter, and as plain
rationals where the code only ever manipulates finite values.
-/

namespace Live2D

/-- A JavaScript number: a finite value (modelled as a rational), one of the
two infinities, or NaN.  The sign of zero is not tracked; the interaction
code never distinguishes `-0` from `0`. -/
inductive JSNum where
  | fin (q : ℚ)
  | posInf
  | negInf
  | nan
deriving DecidableEq, Repr

namespace JSNum

/-- The JS test `Number.isFinite`. -/
def isFinite : JSNum → Bool
  | fin _ => true
  | _ => false

/-- JavaScript division.  `0 / 0` is NaN; `a / 0` for `a ≠ 0` is a signed
infinity (zero is treated as `+0`). -/
def div : JSNum → JSNum → JSNum
  | nan, _ => nan
  | _, nan => nan
  | fin a, fin b =>
      if b = 0 then
        if a = 0 then nan else if a > 0 then posInf else negInf
      else fin (a / b)
  | fin _, posInf => fin 0
  | fin _, negInf => fin 0
  | posInf, fin b => if b < 0 then negInf else posInf
  | negInf, fin b => if b < 0 then posInf else negInf
  | posInf, posInf => nan
  | posInf, negInf => nan
  | negInf, posInf => nan
  | negInf, negInf => nan

/-- JavaScript multiplication.  `0 * ∞` is NaN. -/
def mul : JSNum → JSNum → JSNum
  | nan, _ => nan
  | _, nan => nan
  | fin a, fin b => fin (a * b)
  | fin a, posInf => if a = 0 then nan else if a > 0 then posInf else negInf
  | fin a, negInf => if a = 0 then nan else if a > 0 then negInf else posInf
  | posInf, fin b => if b = 0 then nan else if b > 0 then posInf else negInf
  | negInf, fin b => if b = 0 then nan else if b > 0 then negInf else posInf
  | posInf, posInf => posInf
  | posInf, negInf => negInf
  | negInf, posInf => negInf
  | negInf, negInf => posInf

/-- The JS `Math.min` on two arguments: NaN if either argument is NaN. -/
def jsMin : JSNum → JSNum → JSNum
  | nan, _ => nan
  | _, nan => nan
  | negInf, _ => negInf
  | _, negInf => negInf
  | posInf, b => b
  | a, posInf => a
  | fin a, fin b => fin (min a b)

/-- The JS `Math.max` on two arguments: NaN if either argument is NaN. -/
def jsMax : JSNum → JSNum → JSNum
  | nan, _ => nan
  | _, nan => nan
  | posInf, _ => posInf
  | _, posInf => posInf
  | negInf, b => b
  | a, negInf => a
  | fin a, fin b => fin (max a b)

/-- Whether a JS number is a finite value inside the closed interval
`[lo, hi]`. -/
def inClosedRange (x : JSNum) (lo hi : ℚ) : Bool :=
  match x with
  | fin q => decide (lo ≤ q ∧ q ≤ hi)
  | _ => false

end JSNum

/-! ### Touch pinch zoom (`setupTouchZoom`, `onTouchMove`)

`onTouchMove` with two active touches computes
`scaleChange = currentDistance / initialDistance`,
`newScale = initialScale * scaleChange`, and clamps with
`Math.max(0.1, Math.min(2.0, newScale))` before `scale.set`. -/

/-- The scale written by `onTouchMove` during a two-finger pinch, as a
function of the baseline scale and the two inter-finger distances
(`getTouchDistance` results, hence nonnegative finite numbers). -/
def onTouchMoveScale (initialScale currentDistance initialDistance : ℚ) : JSNum :=
  let scaleChange := JSNum.div (JSNum.fin currentDistance) (JSNum.fin initialDistance)
  let newScale := JSNum.mul (JSNum.fin initialScale) scaleChange
  JSNum.jsMax (JSNum.fin (1/10)) (JSNum.jsMin (JSNum.fin 2) newScale)

/-! ### Wheel zoom (`setupWheelZoom`, `onWheelScroll`)

`onWheelScroll` returns early when locked or no model is loaded; otherwise
`newScale = event.deltaY < 0 ? oldScale * 1.1 : oldScale / 1.1`. -/

/-- The new scale computed by `onWheelScroll` from the old scale and the
wheel delta. -/
def wheelNewScale (oldScale delta : ℚ) : ℚ :=
  if delta < 0 then oldScale * (11/10) else oldScale / (11/10)

/-- State read by the wheel handler: the lock flag and the currently loaded
model's scale (`none` when no model is loaded). -/
structure WheelCtx where
  isLocked : Bool
  currentModel : Option ℚ
deriving DecidableEq, Repr

/-- The handler `onWheelScroll`: no-op when locked or no current model, otherwise the
scale is replaced by `wheelNewScale`. -/
def onWheelScroll (ctx : WheelCtx) (delta : ℚ) : WheelCtx :=
  if ctx.isLocked || ctx.currentModel.isNone then ctx
  else
    match ctx.currentModel with
    | none => ctx
    | some sc => { ctx with currentModel := some (wheelNewScale sc delta) }

/-! ### Drag and multi-display relocation
(`setupDragAndDrop`, `onDragEnd`, `onDragMove`, `_checkAndSwitchDisplay`)

Positions are modelled as rationals: the drag/relocation arithmetic is
plain addition and subtraction of event coordinates, so finiteness is
preserved throughout. -/

/-- The renderer model's transform as used by the interaction code:
position `x`/`y`, per-axis scale, anchor ratio, and intrinsic size. -/
structure PixiModel where
  x : ℚ
  y : ℚ
  scaleX : ℚ
  scaleY : ℚ
  anchorX : ℚ
  anchorY : ℚ
  width : ℚ
  height : ℚ
deriving DecidableEq, Repr

/-- A `model.getBounds()` rectangle. -/
structure Bounds where
  left : ℚ
  top : ℚ
  right : ℚ
  bottom : ℚ
deriving DecidableEq, Repr

/-- A display descriptor returned by `electronScreen.getAllDisplays()`. -/
structure DisplayDesc where
  id : ℕ
  screenX : ℚ
  screenY : ℚ
  width : ℚ
  height : ℚ
deriving DecidableEq, Repr

/-- The result object of `electronScreen.moveWindowToDisplay`.  The
optional `scaleRatio` field is only logged by the source and never affects
behaviour, so it is omitted here. -/
structure MoveResult where
  success : Bool
  sameDisplay : Bool
deriving DecidableEq, Repr

/-- Environment for one run of `_checkAndSwitchDisplay`: presence of the
electron screen API, and the outcomes of the awaited external calls.
`Except.error` models a call that throws (caught by the surrounding
`try`); `Except.ok none` models a null-ish return value. -/
structure RelocEnv where
  hasMoveWindowApi : Bool
  getBounds : Except Unit Bounds
  getAllDisplays : Except Unit (Option (List DisplayDesc))
  windowWidth : ℚ
  windowHeight : ℚ
  getCurrentDisplay : Except Unit (Option (ℚ × ℚ))
  moveWindowToDisplay : Except Unit (Option MoveResult)
deriving Repr

/-- Observable effects of the drag-end pipeline: the relocation check
itself, the save issued internally by a successful relocation, and the
generic post-drag save (`_savePositionAfterInteraction` called from
`onDragEnd`). -/
inductive Effect where
  | relocCheck
  | saveReloc
  | saveGeneric
deriving DecidableEq, Repr

/-- Whether an effect is an invocation of the position-save routine. -/
def Effect.isSave : Effect → Bool
  | .saveReloc => true
  | .saveGeneric => true
  | .relocCheck => false

/-- The routine `_checkAndSwitchDisplay`: returns whether a display switch occurred,
the (possibly re-anchored) model, and the save effects it performed.
Every early-return path and the surrounding `try`/`catch` yields
`(false, m, [])`; only the successful-move branch mutates the model,
saves internally, and returns `true`. -/
def checkAndSwitchDisplay (env : RelocEnv) (m : PixiModel) :
    Bool × PixiModel × List Effect :=
  if ¬ env.hasMoveWindowApi then (false, m, [])
  else
    match env.getBounds with
    | .error _ => (false, m, [])
    | .ok bounds =>
      let modelCenterX := (bounds.left + bounds.right) / 2
      let modelCenterY := (bounds.top + bounds.bottom) / 2
      match env.getAllDisplays with
      | .error _ => (false, m, [])
      | .ok none => (false, m, [])
      | .ok (some displays) =>
        if displays.length ≤ 1 then (false, m, [])
        else if 0 ≤ modelCenterX ∧ modelCenterX < env.windowWidth ∧
                0 ≤ modelCenterY ∧ modelCenterY < env.windowHeight then
          (false, m, [])
        else
          match env.getCurrentDisplay with
          | .error _ => (false, m, [])
          | .ok none => (false, m, [])
          | .ok (some (windowScreenX, windowScreenY)) =>
            let modelScreenX := windowScreenX + modelCenterX
            let modelScreenY := windowScreenY + modelCenterY
            match displays.find? (fun d =>
                decide (d.screenX ≤ modelScreenX ∧
                        modelScreenX < d.screenX + d.width ∧
                        d.screenY ≤ modelScreenY ∧
                        modelScreenY < d.screenY + d.height)) with
            | none => (false, m, [])
            | some targetDisplay =>
              match env.moveWindowToDisplay with
              | .error _ => (false, m, [])
              | .ok none => (false, m, [])
              | .ok (some result) =>
                if result.success ∧ ¬ result.sameDisplay then
                  let newModelX := modelScreenX - targetDisplay.screenX
                  let newModelY := modelScreenY - targetDisplay.screenY
                  let m' := { m with
                    x := newModelX + (m.anchorX - 1/2) * m.width * m.scaleX,
                    y := newModelY + (m.anchorY - 1/2) * m.height * m.scaleY }
                  (true, m', [Effect.saveReloc])
                else (false, m, [])

/-- Interaction state touched by the drag and touch-zoom handlers.
`isDragging` and `isTouchZooming` are the two gesture-in-progress flags
(closure variables in the source); `hasModel` is the truthiness of
`this.currentModel` as read by the touch handlers. -/
structure DragCtx where
  isLocked : Bool
  hasModel : Bool
  isFocusing : Bool
  isDragging : Bool
  dragStartX : ℚ
  dragStartY : ℚ
  isTouchZooming : Bool
  initialDistance : ℚ
  initialScale : ℚ
  model : PixiModel
deriving DecidableEq, Repr

/-- The JS test `event.touches && event.touches.length > 1`: true only when
the event carries a touch list with more than one contact. -/
def multiTouch : Option ℕ → Bool
  | some n => n > 1
  | none => false

/-- The model's `pointerdown` handler.  `touchCount` is
`originalEvent.touches.length` when the original event carries a touch
list (`none` for mouse pointer events).  A multi-touch contact aborts the
drag start without touching any state. -/
def onPointerDown (s : DragCtx) (globalX globalY : ℚ) (touchCount : Option ℕ) :
    DragCtx :=
  if s.isLocked then s
  else if multiTouch touchCount then s
  else { s with
    isDragging := true,
    isFocusing := false,
    dragStartX := globalX - s.model.x,
    dragStartY := globalY - s.model.y }

/-- The window `pointermove` handler `onDragMove`.  `touches` is the
event's `touches` list length when the event carries one.  During a drag,
a move that reports more than one contact clears `isDragging` and returns
without moving the model; otherwise the model follows the pointer. -/
def onDragMove (s : DragCtx) (clientX clientY : ℚ) (touches : Option ℕ) :
    DragCtx :=
  if s.isDragging then
    if multiTouch touches then
      { s with isDragging := false }
    else
      { s with model := { s.model with
          x := clientX - s.dragStartX,
          y := clientY - s.dragStartY } }
  else s

/-- The view `touchstart` handler.  `touchCount` is `event.touches.length`
and `touchDistance` the value `getTouchDistance` computes for the first
two touches (passed as a datum because the square root of a rational need
not be rational; no claim here depends on its value). -/
def onTouchStart (s : DragCtx) (touchCount : ℕ) (touchDistance : ℚ) : DragCtx :=
  if s.isLocked || !s.hasModel then s
  else if touchCount = 2 then
    { s with
      isTouchZooming := true,
      initialDistance := touchDistance,
      initialScale := s.model.scaleX }
  else s

/-- The window `pointerup`/`pointercancel` handler `onDragEnd`: when a drag
is in progress, clear the flag, run the relocation check, and run the
generic save only when no display switch occurred. -/
def onDragEnd (env : RelocEnv) (s : DragCtx) : DragCtx × List Effect :=
  if s.isDragging then
    let s1 := { s with isDragging := false }
    let r := checkAndSwitchDisplay env s1.model
    let s2 := { s1 with model := r.2.1 }
    if r.1 then (s2, Effect.relocCheck :: r.2.2)
    else (s2, Effect.relocCheck :: r.2.2 ++ [Effect.saveGeneric])
  else (s, [])

/-! ### Post-interaction save (`_savePositionAfterInteraction`)

Position and scale are modelled as `JSNum` here because this routine's
whole point is the finiteness validation. -/

/-- The object returned by `electronScreen.getCurrentDisplay()`:
`screenX`/`screenY` fields (possibly non-finite or absent, both modelled
as non-finite `JSNum`s) and an optional `bounds` object carrying `x`/`y`. -/
structure CurrentDisplayInfo where
  screenX : JSNum
  screenY : JSNum
  bounds : Option (JSNum × JSNum)
deriving DecidableEq, Repr

/-- Environment for one run of `_savePositionAfterInteraction`: presence of
`window.electronScreen.getCurrentDisplay` and the awaited call's outcome
(`Except.error` = the call threw, caught and logged). -/
structure SaveEnv where
  hasGetCurrentDisplayApi : Bool
  getCurrentDisplay : Except Unit (Option CurrentDisplayInfo)
deriving Repr

/-- The arguments of a `saveUserPreferences` call: model path, position,
scale, the always-null rotation, and the optional display origin. -/
structure SaveCall where
  modelPath : String
  posX : JSNum
  posY : JSNum
  scaleX : JSNum
  scaleY : JSNum
  rotation : Option JSNum
  displayInfo : Option (JSNum × JSNum)
deriving DecidableEq, Repr

/-- Manager state read by `_savePositionAfterInteraction`: the current
model's position and scale (when a model is loaded) and the last loaded
model path. -/
structure SaveMgr where
  currentModel : Option (JSNum × JSNum × JSNum × JSNum)
  lastLoadedModelPath : Option String
deriving DecidableEq, Repr

/-- The display-origin hint computed inside `_savePositionAfterInteraction`:
prefer `screenX`/`screenY`, fall back to `bounds.x`/`bounds.y` when the
direct fields are not both finite, and emit the hint only when the chosen
pair is finite. -/
def computeDisplayInfo (env : SaveEnv) : Option (JSNum × JSNum) :=
  if ¬ env.hasGetCurrentDisplayApi then none
  else
    match env.getCurrentDisplay with
    | .error _ => none
    | .ok none => none
    | .ok (some cd) =>
      let sx := cd.screenX
      let sy := cd.screenY
      let p :=
        if !sx.isFinite || !sy.isFinite then
          match cd.bounds with
          | some (bx, by0) =>
              if bx.isFinite && by0.isFinite then (bx, by0) else (sx, sy)
          | none => (sx, sy)
        else (sx, sy)
      if p.1.isFinite && p.2.isFinite then some p else none

/-- The routine `_savePositionAfterInteraction`: returns the `saveUserPreferences` call
it issues, or `none` when the save is skipped (no model or path, or any
non-finite position/scale component). -/
def savePositionAfterInteraction (mgr : SaveMgr) (env : SaveEnv) :
    Option SaveCall :=
  match mgr.currentModel, mgr.lastLoadedModelPath with
  | some (px, py, sx, sy), some path =>
    if !px.isFinite || !py.isFinite || !sx.isFinite || !sy.isFinite then none
    else some
      { modelPath := path, posX := px, posY := py, scaleX := sx, scaleY := sy,
        rotation := none, displayInfo := computeDisplayInfo env }
  | _, _ => none

/-! ### Proximity distance (`enableMouseTracking`, `onPointerMove`)

`dx = Math.max(bounds.left - pointer.x, 0, pointer.x - bounds.right)`,
`dy = Math.max(bounds.top - pointer.y, 0, pointer.y - bounds.bottom)`,
`distance = Math.sqrt(dx*dx + dy*dy)`. -/

/-- The clamped horizontal gap between the pointer and the bounding box. -/
def proximityDX (b : Bounds) (px : ℚ) : ℚ :=
  max (b.left - px) (max 0 (px - b.right))

/-- The clamped vertical gap between the pointer and the bounding box. -/
def proximityDY (b : Bounds) (py : ℚ) : ℚ :=
  max (b.top - py) (max 0 (py - b.bottom))

/-- The squared proximity distance `dx*dx + dy*dy`; the code's distance is
its square root. -/
def proximityDistSq (b : Bounds) (px py : ℚ) : ℚ :=
  proximityDX b px * proximityDX b px + proximityDY b py * proximityDY b py

/-- Membership of a point in a bounding box (boundary included). -/
def Bounds.contains (b : Bounds) (px py : ℚ) : Prop :=
  b.left ≤ px ∧ px ≤ b.right ∧ b.top ≤ py ∧ py ≤ b.bottom

instance (b : Bounds) (px py : ℚ) : Decidable (b.contains px py) := by
  unfold Bounds.contains; infer_instance

/-! ### Debounced save after wheel zoom (`_debouncedSavePosition`)

A single-slot timer: scheduling clears any pending timer and arms a new
one 500 ms out; when the timer fires, `_savePositionAfterInteraction`
reads the scale current at fire time.  Modelled as a discrete-event
simulation with rational timestamps. -/

/-- State of the wheel/debounce simulation: current simulated time, the
model's scale, the single pending timer deadline (if armed), and the
scales carried by the saves fired so far, in order. -/
structure DebounceState where
  now : ℚ
  scale : ℚ
  timerDeadline : Option ℚ
  saves : List ℚ
deriving DecidableEq, Repr

/-- Fire the pending debounce timer if its deadline has passed by time
`t`: the save records the scale current at fire time. -/
def fireTimerBefore (s : DebounceState) (t : ℚ) : DebounceState :=
  match s.timerDeadline with
  | some d =>
      if d ≤ t then
        { s with saves := s.saves ++ [s.scale], timerDeadline := none }
      else s
  | none => s

/-- A wheel event at time `t` with delta `δ`: any timer due by `t` fires
first, then `onWheelScroll` updates the scale and `_debouncedSavePosition`
clears the pending timer and arms a new one at `t + 500`. -/
def wheelAt (s : DebounceState) (t δ : ℚ) : DebounceState :=
  let s1 := fireTimerBefore s t
  { s1 with
    now := t,
    scale := wheelNewScale s1.scale δ,
    timerDeadline := some (t + 500) }

/-- Run a list of wheel events given as (gap from previous event, delta)
pairs. -/
def runGaps (s : DebounceState) : List (ℚ × ℚ) → DebounceState
  | [] => s
  | (g, δ) :: rest => runGaps (wheelAt s (s.now + g) δ) rest

/-- Let time run out: a still-pending timer fires its save. -/
def flushTimer (s : DebounceState) : DebounceState :=
  match s.timerDeadline with
  | some _ => { s with saves := s.saves ++ [s.scale], timerDeadline := none }
  | none => s

/-- A whole burst: a first wheel event at time `t0` with delta `δ0` from a
quiescent state with scale `sc0`, the remaining events as gap/delta pairs,
then quiescence. -/
def runBurst (t0 sc0 δ0 : ℚ) (rest : List (ℚ × ℚ)) : DebounceState :=
  flushTimer (runGaps (wheelAt ⟨t0, sc0, none, []⟩ t0 δ0) rest)

/-- A concrete unlocked interaction state with a drag in progress, used to
instantiate theorems at concrete inputs. -/
def dragCtx0 : DragCtx :=
  { isLocked := false, hasModel := true, isFocusing := false,
    isDragging := true, dragStartX := 10, dragStartY := 20,
    isTouchZooming := false, initialDistance := 0, initialScale := 1,
    model := { x := 100, y := 100, scaleX := 1, scaleY := 1,
               anchorX := 1/2, anchorY := 1/2, width := 200, height := 400 } }

/-- A concrete relocation environment in which the electron multi-monitor
API is absent, so `_checkAndSwitchDisplay` reports no switch. -/
def relocEnv0 : RelocEnv :=
  { hasMoveWindowApi := false, getBounds := Except.ok ⟨0, 0, 0, 0⟩,
    getAllDisplays := Except.ok none, windowWidth := 800,
    windowHeight := 600, getCurrentDisplay := Except.ok none,
    moveWindowToDisplay := Except.ok none }

/-- A concrete idle interaction state: unlocked, model loaded, no gesture
in progress. -/
def dragIdle : DragCtx :=
  { isLocked := false, hasModel := true, isFocusing := false,
    isDragging := false, dragStartX := 0, dragStartY := 0,
    isTouchZooming := false, initialDistance := 0, initialScale := 1,
    model := { x := 100, y := 100, scaleX := 1, scaleY := 1,
               anchorX := 1/2, anchorY := 1/2, width := 200, height := 400 } }

/-! ## Theorems -/

/-- The function `wheelNewScale` preserves strict positivity of the scale. -/
lemma wheelNewScale_pos (sc δ : ℚ) (h : 0 < sc) : 0 < wheelNewScale sc δ := by
  unfold wheelNewScale
  split
  · positivity
  · positivity

/-- Any sequence of wheel deltas keeps a positive scale positive. -/
lemma foldl_wheelNewScale_pos (δs : List ℚ) :
    ∀ sc : ℚ, 0 < sc → 0 < List.foldl wheelNewScale sc δs := by
  induction δs with
  | nil => intro sc h; simpa using h
  | cons δ δs ih =>
    intro sc h
    simpa using ih (wheelNewScale sc δ) (wheelNewScale_pos sc δ h)

/-- C5: while unlocked with a model loaded, a wheel event with negative
delta multiplies the scale by exactly 1.1 and strictly increases it, a
wheel event with positive delta divides the scale by exactly 1.1 and
strictly decreases it, and every sequence of wheel events starting from a
positive scale keeps the scale strictly positive. -/
theorem wheel_scale_monotone_and_positive (ctx : WheelCtx) (sc δ : ℚ)
    (hl : ctx.isLocked = false) (hm : ctx.currentModel = some sc)
    (hsc : 0 < sc) :
    (onWheelScroll ctx δ).currentModel = some (wheelNewScale sc δ) ∧
    (δ < 0 → wheelNewScale sc δ = sc * (11/10) ∧ sc < wheelNewScale sc δ) ∧
    (0 < δ → wheelNewScale sc δ = sc / (11/10) ∧ wheelNewScale sc δ < sc) ∧
    ∀ δs : List ℚ, 0 < List.foldl wheelNewScale sc δs := by
  refine ⟨?_, ?_, ?_, fun δs => foldl_wheelNewScale_pos δs sc hsc⟩
  · simp [onWheelScroll, hl, hm]
  · intro hδ
    rw [wheelNewScale, if_pos hδ]
    constructor
    · rfl
    · nlinarith
  · intro hδ
    rw [wheelNewScale, if_neg (by linarith)]
    constructor
    · rfl
    · rw [div_lt_iff₀ (by norm_num)]
      nlinarith

/-- Witness for C5 at a concrete state and inputs. -/
theorem wheel_scale_monotone_and_positive_witness :
    (onWheelScroll ⟨false, some 1⟩ (-1)).currentModel = some (wheelNewScale 1 (-1)) ∧
    (wheelNewScale 1 (-1) = 1 * (11/10) ∧ (1:ℚ) < wheelNewScale 1 (-1)) ∧
    (wheelNewScale 1 1 = 1 / (11/10) ∧ wheelNewScale 1 1 < 1) ∧
    0 < List.foldl wheelNewScale 1 [1, -2, 3] := by
  have hneg := wheel_scale_monotone_and_positive ⟨false, some 1⟩ 1 (-1) rfl rfl
    (by norm_num)
  have hpos := wheel_scale_monotone_and_positive ⟨false, some 1⟩ 1 1 rfl rfl
    (by norm_num)
  exact ⟨hneg.1, hneg.2.1 (by norm_num), hpos.2.2.1 (by norm_num),
    hpos.2.2.2 [1, -2, 3]⟩

/-- C9: while unlocked with a model loaded, a wheel event with delta
exactly 0 takes the scale-decrease branch: the scale is divided by 1.1 and
strictly decreases. -/
theorem wheel_zero_delta_decreases (ctx : WheelCtx) (sc : ℚ)
    (hl : ctx.isLocked = false) (hm : ctx.currentModel = some sc)
    (hsc : 0 < sc) :
    (onWheelScroll ctx 0).currentModel = some (sc / (11/10)) ∧
    sc / (11/10) < sc := by
  constructor
  · simp [onWheelScroll, hl, hm, wheelNewScale]
  · rw [div_lt_iff₀ (by norm_num)]
    nlinarith

/-- Witness for C9 at a concrete state. -/
theorem wheel_zero_delta_decreases_witness :
    (onWheelScroll ⟨false, some 1⟩ 0).currentModel = some (1 / (11/10)) ∧
    (1:ℚ) / (11/10) < 1 :=
  wheel_zero_delta_decreases ⟨false, some 1⟩ 1 rfl rfl (by norm_num)

/-- C2 counterexample: with both the baseline and the current inter-finger
distance equal to zero, the `0 / 0` ratio is NaN, NaN propagates through
the clamp, and the value written to the scale is NaN — not a number in
`[0.1, 2.0]`. -/
theorem pinch_scale_nan_counterexample :
    onTouchMoveScale 1 0 0 = JSNum.nan ∧
    JSNum.inClosedRange (onTouchMoveScale 1 0 0) (1/10) 2 = false := by
  constructor <;> rfl

/-- C2 (amended): during a two-finger move the scale written is the clamp
`Math.max(0.1, Math.min(2.0, baseline * (current / baseline-distance)))`,
and for a positive baseline scale it lies in `[0.1, 2.0]` for every pair
of distances except when both distances are zero (where NaN is written). -/
theorem pinch_scale_clamped (s dCur dInit : ℚ) (hs : 0 < s)
    (h : ¬ (dCur = 0 ∧ dInit = 0)) :
    onTouchMoveScale s dCur dInit =
      JSNum.jsMax (JSNum.fin (1/10)) (JSNum.jsMin (JSNum.fin 2)
        (JSNum.mul (JSNum.fin s)
          (JSNum.div (JSNum.fin dCur) (JSNum.fin dInit)))) ∧
    JSNum.inClosedRange (onTouchMoveScale s dCur dInit) (1/10) 2 = true := by
  refine ⟨rfl, ?_⟩
  by_cases hdi : dInit = 0
  · have hdc : dCur ≠ 0 := fun hc => h ⟨hc, hdi⟩
    rcases lt_or_gt_of_ne hdc with hneg | hpos
    · simp [onTouchMoveScale, JSNum.div, hdi, hdc, not_lt.mpr (le_of_lt hneg),
        hneg.not_lt, JSNum.mul, hs.ne', hs, JSNum.jsMin, JSNum.jsMax,
        JSNum.inClosedRange]
      norm_num
    · simp [onTouchMoveScale, JSNum.div, hdi, hdc, hpos, JSNum.mul, hs.ne', hs,
        JSNum.jsMin, JSNum.jsMax, JSNum.inClosedRange]
      norm_num
  · simp only [onTouchMoveScale, JSNum.div, if_neg hdi, JSNum.mul, JSNum.jsMin,
      JSNum.jsMax, JSNum.inClosedRange]
    rw [decide_eq_true_iff]
    constructor
    · exact le_max_left _ _
    · exact max_le (by norm_num) (le_trans (min_le_left _ _) (by norm_num))

/-- Witness for C2 (amended) at a concrete pinch. -/
theorem pinch_scale_clamped_witness :
    onTouchMoveScale 1 3 4 =
      JSNum.jsMax (JSNum.fin (1/10)) (JSNum.jsMin (JSNum.fin 2)
        (JSNum.mul (JSNum.fin 1) (JSNum.div (JSNum.fin 3) (JSNum.fin 4)))) ∧
    JSNum.inClosedRange (onTouchMoveScale 1 3 4) (1/10) 2 = true :=
  pinch_scale_clamped 1 3 4 (by norm_num) (by norm_num)

/-- C6: whenever any component of the current model's position or scale is
not a finite number, `_savePositionAfterInteraction` skips the save
entirely: `saveUserPreferences` is never invoked (and the routine performs
no retry — it simply returns). -/
theorem save_skipped_on_nonfinite (mgr : SaveMgr) (env : SaveEnv)
    (px py sx sy : JSNum) (hm : mgr.currentModel = some (px, py, sx, sy))
    (h : px.isFinite = false ∨ py.isFinite = false ∨
         sx.isFinite = false ∨ sy.isFinite = false) :
    savePositionAfterInteraction mgr env = none := by
  obtain ⟨cm, path⟩ := mgr
  simp only [SaveMgr.currentModel] at hm
  subst hm
  cases path with
  | none => rfl
  | some p =>
      simp only [savePositionAfterInteraction]
      rcases h with h | h | h | h <;> simp [h]

/-- Witness for C6: a NaN x-coordinate (position `{x: NaN, y: 0}`) never
reaches the storage collaborator. -/
theorem save_skipped_on_nonfinite_witness :
    savePositionAfterInteraction
      ⟨some (JSNum.nan, JSNum.fin 0, JSNum.fin 1, JSNum.fin 1),
       some ("model.json")⟩
      ⟨false, Except.ok none⟩ = none :=
  save_skipped_on_nonfinite _ _ JSNum.nan (JSNum.fin 0) (JSNum.fin 1)
    (JSNum.fin 1) rfl (Or.inl rfl)

/-- C7: from any in-progress drag, a single-contact move places the model
at the pointer minus the captured offset, and every event form a second
contact can take — a multi-contact `pointermove`, a `touchstart`, or a
multi-contact `pointerdown` — leaves the model transform exactly where the
last single-contact move put it. -/
theorem interrupting_contact_preserves_position (s : DragCtx)
    (mx my ix iy td : ℚ) (n : ℕ) (hn : 2 ≤ n) (hd : s.isDragging = true) :
    ((onDragMove s mx my none).model.x = mx - s.dragStartX ∧
     (onDragMove s mx my none).model.y = my - s.dragStartY) ∧
    (onDragMove (onDragMove s mx my none) ix iy (some n)).model =
      (onDragMove s mx my none).model ∧
    (onTouchStart (onDragMove s mx my none) n td).model =
      (onDragMove s mx my none).model ∧
    (onPointerDown (onDragMove s mx my none) ix iy (some n)).model =
      (onDragMove s mx my none).model := by
  have hmt : multiTouch (some n) = true := by
    simp [multiTouch]; omega
  have h1 : onDragMove s mx my none =
      { s with model := { s.model with
          x := mx - s.dragStartX, y := my - s.dragStartY } } := by
    simp [onDragMove, hd, multiTouch]
  refine ⟨⟨by rw [h1], by rw [h1]⟩, ?_, ?_, ?_⟩
  · rw [h1]
    simp only [onDragMove, hmt, if_true]
    split <;> rfl
  · rw [h1]
    simp only [onTouchStart]
    split
    · rfl
    · split <;> rfl
  · rw [h1]
    simp only [onPointerDown, hmt]
    split
    · rfl
    · rfl

/-- Witness for C7 at a concrete drag state and contact points. -/
theorem interrupting_contact_preserves_position_witness :
    (((onDragMove dragCtx0 30 40 none).model.x = 30 - dragCtx0.dragStartX ∧
      (onDragMove dragCtx0 30 40 none).model.y = 40 - dragCtx0.dragStartY) ∧
     (onDragMove (onDragMove dragCtx0 30 40 none) 31 41 (some 2)).model =
       (onDragMove dragCtx0 30 40 none).model ∧
     (onTouchStart (onDragMove dragCtx0 30 40 none) 2 5).model =
       (onDragMove dragCtx0 30 40 none).model ∧
     (onPointerDown (onDragMove dragCtx0 30 40 none) 31 41 (some 2)).model =
       (onDragMove dragCtx0 30 40 none).model) :=
  interrupting_contact_preserves_position dragCtx0 30 40 31 41 5 2
    (by norm_num) rfl

/-- C10: a drag cancelled by a move event reporting a second contact never
reaches the settle pipeline — the subsequent `pointerup`/`pointercancel`
finds `isDragging` already cleared and performs neither the relocation
check nor any save. -/
theorem cancelled_drag_skips_settle (env : RelocEnv) (s : DragCtx)
    (x y : ℚ) (n : ℕ) (hn : 2 ≤ n) (hd : s.isDragging = true) :
    (onDragMove s x y (some n)).isDragging = false ∧
    onDragEnd env (onDragMove s x y (some n)) =
      (onDragMove s x y (some n), []) := by
  have hmt : multiTouch (some n) = true := by
    simp [multiTouch]; omega
  have h1 : onDragMove s x y (some n) = { s with isDragging := false } := by
    simp [onDragMove, hd, hmt]
  rw [h1]
  exact ⟨rfl, by simp [onDragEnd]⟩

/-- Witness for C10 at a concrete drag state, contact count, and
environment. -/
theorem cancelled_drag_skips_settle_witness :
    (onDragMove dragCtx0 30 40 (some 2)).isDragging = false ∧
    onDragEnd relocEnv0 (onDragMove dragCtx0 30 40 (some 2)) =
      (onDragMove dragCtx0 30 40 (some 2), []) :=
  cancelled_drag_skips_settle relocEnv0 dragCtx0 30 40 2 (by norm_num) rfl

/-- C3 counterexample: from the idle state, a single-contact drag start
followed by a two-finger `touchstart` yields a reachable state in which
`isDragging` and `isTouchZooming` are simultaneously true — the second
contact's arrival does not cancel the drag when the pinch activates. -/
theorem drag_and_zoom_flags_both_true :
    (onTouchStart (onPointerDown dragIdle 120 130 (some 1)) 2 50).isDragging
      = true ∧
    (onTouchStart (onPointerDown dragIdle 120 130 (some 1)) 2 50).isTouchZooming
      = true := by
  exact ⟨rfl, rfl⟩

/-- C3 (amended): the two gesture flags can be simultaneously true.  A
two-finger `touchstart` activates the pinch while leaving `isDragging`
untouched; an in-progress drag is cancelled only by the next pointer-move
event that reports more than one contact. -/
theorem second_contact_cancels_drag_only_on_move (s : DragCtx) (d x y : ℚ)
    (n : ℕ) (hl : s.isLocked = false) (hm : s.hasModel = true) (hn : 2 ≤ n) :
    ((onTouchStart s 2 d).isDragging = s.isDragging ∧
     (onTouchStart s 2 d).isTouchZooming = true) ∧
    (onDragMove s x y (some n)).isDragging = false := by
  have hmt : multiTouch (some n) = true := by
    simp [multiTouch]; omega
  refine ⟨?_, ?_⟩
  · simp [onTouchStart, hl, hm]
  · cases hd : s.isDragging <;> simp [onDragMove, hd, hmt]

/-- Witness for C3 (amended) at a concrete state. -/
theorem second_contact_cancels_drag_only_on_move_witness :
    ((onTouchStart dragCtx0 2 50).isDragging = dragCtx0.isDragging ∧
     (onTouchStart dragCtx0 2 50).isTouchZooming = true) ∧
    (onDragMove dragCtx0 7 8 (some 2)).isDragging = false :=
  second_contact_cancels_drag_only_on_move dragCtx0 50 7 8 2 rfl rfl
    (by norm_num)

/-- The save effects of `_checkAndSwitchDisplay` are exactly one internal
save when it reports a switch, and none otherwise. -/
lemma checkAndSwitchDisplay_cases (env : RelocEnv) (m : PixiModel) :
    checkAndSwitchDisplay env m = (false, m, []) ∨
    ∃ m', checkAndSwitchDisplay env m = (true, m', [Effect.saveReloc]) := by
  unfold checkAndSwitchDisplay
  dsimp only
  repeat' split
  all_goals first
    | exact Or.inl rfl
    | exact Or.inr ⟨_, rfl⟩

lemma checkAndSwitchDisplay_effects (env : RelocEnv) (m : PixiModel) :
    (checkAndSwitchDisplay env m).2.2 =
      if (checkAndSwitchDisplay env m).1 then [Effect.saveReloc] else [] := by
  rcases checkAndSwitchDisplay_cases env m with h | ⟨m', h⟩ <;> rw [h] <;> rfl

/-- C1: for every drag that ends via `pointerup`/`pointercancel`, the
relocation check runs first and exactly one save call occurs: the generic
post-drag save runs if and only if the relocation check reported no
display switch, a successful switch having saved internally instead. -/
theorem dragEnd_single_save (env : RelocEnv) (s : DragCtx)
    (hd : s.isDragging = true) :
    ((onDragEnd env s).2.filter Effect.isSave).length = 1 ∧
    (onDragEnd env s).2.head? = some Effect.relocCheck ∧
    (Effect.saveGeneric ∈ (onDragEnd env s).2 ↔
      (checkAndSwitchDisplay env s.model).1 = false) ∧
    (Effect.saveReloc ∈ (onDragEnd env s).2 ↔
      (checkAndSwitchDisplay env s.model).1 = true) := by
  have heff := checkAndSwitchDisplay_effects env s.model
  simp only [onDragEnd, hd, if_true]
  cases hsw : (checkAndSwitchDisplay env s.model).1 <;>
    rw [hsw] at heff <;>
    simp [heff, hsw, Effect.isSave, List.filter]

/-- Witness for C1 at a concrete drag state and environment (no electron
API present, hence no switch and the one generic save). -/
theorem dragEnd_single_save_witness :
    ((onDragEnd relocEnv0 dragCtx0).2.filter Effect.isSave).length = 1 ∧
    (onDragEnd relocEnv0 dragCtx0).2.head? = some Effect.relocCheck ∧
    (Effect.saveGeneric ∈ (onDragEnd relocEnv0 dragCtx0).2 ↔
      (checkAndSwitchDisplay relocEnv0 dragCtx0.model).1 = false) ∧
    (Effect.saveReloc ∈ (onDragEnd relocEnv0 dragCtx0).2 ↔
      (checkAndSwitchDisplay relocEnv0 dragCtx0.model).1 = true) :=
  dragEnd_single_save relocEnv0 dragCtx0 rfl

/-- While every gap stays strictly below the 500 ms window, the armed
debounce timer never fires during the burst: no save happens, the deadline
always tracks the latest event, and the scale is the fold of the deltas. -/
lemma runGaps_no_fire (rest : List (ℚ × ℚ)) :
    ∀ s : DebounceState, s.timerDeadline = some (s.now + 500) →
    (∀ p ∈ rest, 0 ≤ p.1 ∧ p.1 < 500) →
    (runGaps s rest).saves = s.saves ∧
    (runGaps s rest).timerDeadline = some ((runGaps s rest).now + 500) ∧
    (runGaps s rest).scale =
      List.foldl wheelNewScale s.scale (rest.map Prod.snd) := by
  induction rest with
  | nil =>
    intro s h _
    exact ⟨rfl, by simpa [runGaps] using h, rfl⟩
  | cons p rest ih =>
    intro s h hg
    obtain ⟨g, δ⟩ := p
    have hp := hg (g, δ) (List.mem_cons_self _ _)
    have h500 : ¬ (s.now + 500 ≤ s.now + g) := by
      simp only [not_le]
      linarith [hp.2]
    have hw : wheelAt s (s.now + g) δ =
        { now := s.now + g, scale := wheelNewScale s.scale δ,
          timerDeadline := some (s.now + g + 500), saves := s.saves } := by
      simp [wheelAt, fireTimerBefore, h, h500]
    have hrec := ih
      { now := s.now + g, scale := wheelNewScale s.scale δ,
        timerDeadline := some (s.now + g + 500), saves := s.saves } rfl
      (fun q hq => hg q (List.mem_cons_of_mem _ hq))
    simp only [runGaps, hw]
    simpa using hrec

/-- C8: a burst of wheel events whose consecutive gaps all stay below the
500 ms debounce window produces exactly one save, carrying the scale
produced by the last wheel event of the burst; each event re-arms the
single timer slot instead of queueing another firing. -/
theorem wheel_burst_single_save (t0 sc0 δ0 : ℚ) (rest : List (ℚ × ℚ))
    (hg : ∀ p ∈ rest, 0 ≤ p.1 ∧ p.1 < 500) :
    (runBurst t0 sc0 δ0 rest).saves =
      [List.foldl wheelNewScale (wheelNewScale sc0 δ0) (rest.map Prod.snd)] ∧
    (runBurst t0 sc0 δ0 rest).scale =
      List.foldl wheelNewScale (wheelNewScale sc0 δ0) (rest.map Prod.snd) := by
  have h1 : wheelAt ⟨t0, sc0, none, []⟩ t0 δ0 =
      { now := t0, scale := wheelNewScale sc0 δ0,
        timerDeadline := some (t0 + 500), saves := [] } := by
    simp [wheelAt, fireTimerBefore]
  have hrec := runGaps_no_fire rest
    { now := t0, scale := wheelNewScale sc0 δ0,
      timerDeadline := some (t0 + 500), saves := [] } rfl hg
  obtain ⟨hs, ht, hsc⟩ := hrec
  unfold runBurst
  rw [h1]
  constructor <;> simp [flushTimer, ht, hs, hsc]

/-- Witness for C8 at a concrete two-event burst. -/
theorem wheel_burst_single_save_witness :
    (runBurst 0 1 (-1) [(100, 2)]).saves =
      [List.foldl wheelNewScale (wheelNewScale 1 (-1)) (List.map Prod.snd [(100, 2)])] ∧
    (runBurst 0 1 (-1) [(100, 2)]).scale =
      List.foldl wheelNewScale (wheelNewScale 1 (-1)) (List.map Prod.snd [(100, 2)]) := by
  refine wheel_burst_single_save 0 1 (-1) [(100, 2)] ?_
  intro p hp
  simp only [List.mem_singleton] at hp
  subst hp
  norm_num

/-- One axis of the proximity computation equals the distance from the
coordinate to its clamp onto the interval `[l, r]`. -/
lemma axisGap_eq_abs (l r p : ℚ) (h : l ≤ r) :
    max (l - p) (max 0 (p - r)) = |p - max l (min p r)| := by
  rcases le_total p l with h1 | h1
  · rw [min_eq_left (le_trans h1 h), max_eq_left h1,
      abs_of_nonpos (by linarith)]
    rw [max_eq_left (max_le (by linarith) (by linarith))]
    ring
  · rcases le_total p r with h2 | h2
    · rw [min_eq_left h2, max_eq_right h1, sub_self, abs_zero]
      rw [max_eq_left (by linarith : p - r ≤ 0)]
      exact max_eq_right (by linarith)
    · rw [min_eq_right h2, max_eq_right h, abs_of_nonneg (by linarith)]
      rw [max_eq_right (by linarith : (0:ℚ) ≤ p - r)]
      exact max_eq_right (by linarith)

/-- The clamp onto `[l, r]` is the nearest point of the interval. -/
lemma axisGap_min (l r p q : ℚ) (h : l ≤ r) (hq1 : l ≤ q) (hq2 : q ≤ r) :
    |p - max l (min p r)| ≤ |p - q| := by
  rcases le_total p l with h1 | h1
  · rw [min_eq_left (le_trans h1 h), max_eq_left h1,
      abs_of_nonpos (by linarith)]
    calc -(p - l) ≤ q - p := by linarith
    _ ≤ |p - q| := by rw [abs_sub_comm]; exact le_abs_self _
  · rcases le_total p r with h2 | h2
    · rw [min_eq_left h2, max_eq_right h1, sub_self, abs_zero]
      exact abs_nonneg _
    · rw [min_eq_right h2, max_eq_right h, abs_of_nonneg (by linarith)]
      calc p - r ≤ p - q := by linarith
      _ ≤ |p - q| := le_abs_self _

/-- C4: for every pointer position and bounding box, the code's proximity
distance `Math.sqrt(dx*dx + dy*dy)` is exactly 0 when the pointer is
inside (or on the boundary of) the box, and otherwise equals the Euclidean
distance from the pointer to the nearest point of the box (an edge or
corner point, obtained by per-axis clamping); in particular, for box
`[0,0]`-`[100,100]` the pointer `(150,40)` gives 50 and the pointer
`(150,140)` gives `sqrt(50*50 + 40*40)`. -/
theorem proximity_distance_correct (b : Bounds) (px py : ℚ)
    (hlr : b.left ≤ b.right) (htb : b.top ≤ b.bottom) :
    (b.contains px py → Real.sqrt ((proximityDistSq b px py : ℚ) : ℝ) = 0) ∧
    (∃ cx cy : ℚ, b.contains cx cy ∧
      Real.sqrt ((proximityDistSq b px py : ℚ) : ℝ) =
        Real.sqrt (((px - cx) * (px - cx) + (py - cy) * (py - cy) : ℚ) : ℝ) ∧
      ∀ qx qy : ℚ, b.contains qx qy →
        Real.sqrt ((proximityDistSq b px py : ℚ) : ℝ) ≤
          Real.sqrt (((px - qx) * (px - qx) + (py - qy) * (py - qy) : ℚ) : ℝ)) ∧
    Real.sqrt ((proximityDistSq ⟨0, 0, 100, 100⟩ 150 40 : ℚ) : ℝ) = 50 ∧
    Real.sqrt ((proximityDistSq ⟨0, 0, 100, 100⟩ 150 140 : ℚ) : ℝ) =
      Real.sqrt ((50 * 50 + 40 * 40 : ℚ) : ℝ) := by
  have hdx := axisGap_eq_abs b.left b.right px hlr
  have hdy := axisGap_eq_abs b.top b.bottom py htb
  have habs : proximityDistSq b px py =
      |px - max b.left (min px b.right)| * |px - max b.left (min px b.right)| +
      |py - max b.top (min py b.bottom)| * |py - max b.top (min py b.bottom)| := by
    unfold proximityDistSq proximityDX proximityDY
    rw [hdx, hdy]
  refine ⟨?_, ⟨max b.left (min px b.right), max b.top (min py b.bottom),
    ⟨le_max_left _ _, max_le hlr (min_le_right _ _),
     le_max_left _ _, max_le htb (min_le_right _ _)⟩, ?_, ?_⟩, ?_, ?_⟩
  · rintro ⟨h1, h2, h3, h4⟩
    have hx : proximityDX b px = 0 := by
      unfold proximityDX
      rw [max_eq_left (by linarith : px - b.right ≤ 0)]
      exact max_eq_right (by linarith)
    have hy : proximityDY b py = 0 := by
      unfold proximityDY
      rw [max_eq_left (by linarith : py - b.bottom ≤ 0)]
      exact max_eq_right (by linarith)
    simp [proximityDistSq, hx, hy]
  · rw [habs, abs_mul_abs_self, abs_mul_abs_self]
  · rintro qx qy ⟨hq1, hq2, hq3, hq4⟩
    have h1 := axisGap_min b.left b.right px qx hlr hq1 hq2
    have h2 := axisGap_min b.top b.bottom py qy htb hq3 hq4
    have hle : proximityDistSq b px py ≤
        (px - qx) * (px - qx) + (py - qy) * (py - qy) := by
      rw [habs]
      have a1 := mul_self_le_mul_self (abs_nonneg (px - max b.left (min px b.right))) h1
      have a2 := mul_self_le_mul_self (abs_nonneg (py - max b.top (min py b.bottom))) h2
      rw [abs_mul_abs_self (px - qx)] at a1
      rw [abs_mul_abs_self (py - qy)] at a2
      exact add_le_add a1 a2
    exact Real.sqrt_le_sqrt (by exact_mod_cast hle)
  · have e1 : proximityDistSq ⟨0, 0, 100, 100⟩ 150 40 = 2500 := by
      simp [proximityDistSq, proximityDX, proximityDY]
      norm_num
    rw [e1]
    rw [show ((2500 : ℚ) : ℝ) = 50 ^ 2 by norm_num]
    exact Real.sqrt_sq (by norm_num)
  · have e2 : proximityDistSq ⟨0, 0, 100, 100⟩ 150 140 = 50 * 50 + 40 * 40 := by
      simp [proximityDistSq, proximityDX, proximityDY]
      norm_num
    rw [e2]

/-- Witness for C4: a pointer inside the box is at distance 0. -/
theorem proximity_distance_correct_witness :
    Real.sqrt ((proximityDistSq ⟨0, 0, 100, 100⟩ 50 40 : ℚ) : ℝ) = 0 :=
  (proximity_distance_correct ⟨0, 0, 100, 100⟩ 50 40 (by norm_num)
    (by norm_num)).1 ⟨by norm_num, by norm_num, by norm_num, by norm_num⟩

end Live2D
